import Mathlib

/-!
# Verification of the ESP32 oscilloscope acquisition/measurement core

Shallow embedding of the firmware's acquisition-and-measurement pipeline:
the calibration conversion `from_voltage` (adc.ino), the sliding-window
`mean_filter` (filters.h), the measurement routines `peak_mean` and
`calculate_frequency` and the `check_trigger` evaluator (data_analysis.ino),
and the command handler `process_command` plus one acquisition cycle of
`loop` (main sketch).

Floating-point arithmetic of the firmware is modelled exactly over `ℚ`;
12-bit ADC samples are `ℕ` codes; fixed-width integer stores carry their
C conversion (`% 256` for `uint8_t`, `% 2^32` for `uint32_t`) where the
source assigns a wider parse result into them.
-/

set_option autoImplicit false

/-- Truncation toward zero, the semantics of C's `(integer)` cast applied to
a non-integral value: `⌊q⌋` for non-negative `q`, `⌈q⌉` for negative `q`. -/
def ratTrunc (q : ℚ) : ℤ :=
  if q < 0 then ⌈q⌉ else ⌊q⌋

/-- `from_voltage` from adc.ino:
`return (uint16_t)(voltage / 3.3 * 4095.0);`
The cast truncates toward zero; it is the identity on results in
`[0, 65535]` and has undefined behaviour in C outside that range, so the
model returns the mathematical truncated value as an `ℤ`. -/
def from_voltage (v : ℚ) : ℤ :=
  ratTrunc (v / (33/10) * 4095)

/-- Stated for comparison only — the conversion as the claim words it:
`round(v / 3.3 * 4095)` clamped to `[0, 4095]`. -/
def from_voltage_claim (v : ℚ) : ℤ :=
  max 0 (min 4095 (round (v / (33/10) * 4095)))

/-! ## Mean filter (filters.h, class `mean_filter`)

The filter state is the first `_values` slots of the `_data` array, held as a
`List ℚ` whose length is the window size `K`. -/

/-- Constructor `mean_filter(int values)`: `_values = values; if (_values > 100)
_values = 100;`. -/
def mean_filter_size (values : ℕ) : ℕ :=
  if values > 100 then 100 else values

/-- `init(float value)`: fills the window with a constant. -/
def mean_filter_init (K : ℕ) (value : ℚ) : List ℚ :=
  List.replicate K value

/-- The body of the loop in `mean_filter::filter`:
`for (i = 0; i < _values - 1; i++) { temp += _data[i]; _data[i] = _data[i+1]; }`
rendered structurally: at each index the current cell is added to the sum and
then overwritten by its (not yet modified) right neighbour; the final cell is
left alone. Returns the accumulated sum and the shifted array. -/
def mf_shift : List ℚ → ℚ × List ℚ
  | [] => (0, [])
  | [x] => (0, [x])
  | x :: y :: rest =>
    let t := mf_shift (y :: rest)
    (x + t.1, y :: t.2)

/-- `mean_filter::filter(float reading)`:
`_data[_values - 1] = reading;` then the shift loop accumulating `temp`,
then `temp += reading; return temp / float(_values);`.
Returns the output value and the new state. -/
def mean_filter_filter (K : ℕ) (d : List ℚ) (reading : ℚ) : ℚ × List ℚ :=
  let d1 := d.set (K - 1) reading
  let t := mf_shift d1
  ((t.1 + reading) / (K : ℚ), t.2)

/-- Feed a stream of readings through a `mean_filter`, collecting the outputs. -/
def mean_filter_run_go (K : ℕ) : List ℚ → List ℚ → List ℚ
  | _, [] => []
  | d, x :: xs =>
    let t := mean_filter_filter K d x
    t.1 :: mean_filter_run_go K t.2 xs

/-- Construct a `mean_filter(values)`, `init(c)` it, and feed it the stream
`xs`, collecting the output of every `filter` call. -/
def mean_filter_run (values : ℕ) (c : ℚ) (xs : List ℚ) : List ℚ :=
  let K := mean_filter_size values
  mean_filter_run_go K (mean_filter_init K c) xs

/-- The last `n` elements of a list (all of it when `n ≥ length`). -/
def lastN {α : Type} (n : ℕ) (xs : List α) : List α :=
  xs.drop (xs.length - n)

/-! ## Measurement engine (data_analysis.ino) -/

/-- The loop of `peak_mean`: carries the 5-tap filter state `d`, the running
`max_value`, `min_value` and the raw accumulator `mean`. Each step:
`value = filter.filter((float)buffer[i]); if (value > max) max = value;
if (value < min) min = value; mean += buffer[i];`. -/
def peak_mean_go (d : List ℚ) (maxv minv acc : ℚ) : List ℕ → ℚ × ℚ × ℚ
  | [] => (maxv, minv, acc)
  | b :: rest =>
    let t := mean_filter_filter 5 d (b : ℚ)
    peak_mean_go t.2 (if t.1 > maxv then t.1 else maxv)
      (if t.1 < minv then t.1 else minv) (acc + (b : ℚ)) rest

/-- `peak_mean(buffer, len, &max, &min, &mean)` from data_analysis.ino:
max/min start from `buffer[0]` and are tracked on the output of a
`mean_filter filter(5)` initialised with `filter.init(buffer[0])`; the mean
accumulates the raw samples and is divided by `len` at the end.
Returns `(max_value, min_value, mean)`. -/
def peak_mean (buffer : List ℕ) : ℚ × ℚ × ℚ :=
  let b0 : ℚ := (buffer.headD 0 : ℕ)
  let d0 := mean_filter_init 5 b0
  let t := peak_mean_go d0 b0 b0 0 buffer
  (t.1, t.2.1, t.2.2 / (buffer.length : ℚ))

/-- The edge-counting loop of `calculate_frequency`: carries
`signal_side = (previous sample > mean)` and counts steps where
`!signal_side && (buffer[i] > mean)`. -/
def count_crossings (mean : ℚ) : Bool → List ℕ → ℕ
  | _, [] => 0
  | side, b :: rest =>
    let cur := decide ((b : ℚ) > mean)
    (if !side && cur then 1 else 0) + count_crossings mean cur rest

/-- `calculate_frequency(buffer, len, sample_rate, mean, &freq, &period)`:
counts rising edges (transitions of `buffer[i] > mean` from false to true,
seeded with `buffer[0] > mean`); if the count exceeds 1,
`freq = count / (len / sample_rate)` and `period = 1/freq`, else both 0.
Returns `(freq, period)`. -/
def calculate_frequency (buffer : List ℕ) (sample_rate mean : ℚ) : ℚ × ℚ :=
  let b0 : ℚ := (buffer.headD 0 : ℕ)
  let crossing_count := count_crossings mean (decide (b0 > mean)) buffer.tail
  if crossing_count > 1 then
    let total_time := (buffer.length : ℚ) / sample_rate
    let freq := (crossing_count : ℚ) / total_time
    (freq, 1 / freq)
  else
    (0, 0)

/-- The scanning loop of `check_trigger` over adjacent pairs:
rising — `buffer[i-1] < trigger_value && buffer[i] >= trigger_value`;
falling — `buffer[i-1] > trigger_value && buffer[i] <= trigger_value`. -/
def scan_trigger (trigger_value : ℚ) (rising : Bool) : List ℕ → Bool
  | prev :: cur :: rest =>
    if rising then
      if (prev : ℚ) < trigger_value ∧ (cur : ℚ) ≥ trigger_value then true
      else scan_trigger trigger_value rising (cur :: rest)
    else
      if (prev : ℚ) > trigger_value ∧ (cur : ℚ) ≤ trigger_value then true
      else scan_trigger trigger_value rising (cur :: rest)
  | _ => false

/-- `check_trigger(buffer, len, trigger_value, rising)` from data_analysis.ino.
It reads the global `trigger_mode`, passed here explicitly:
`if (trigger_mode == 0) return true;` then the pair scan, else `false`. -/
def check_trigger (trigger_mode : ℕ) (buffer : List ℕ) (trigger_value : ℚ)
    (rising : Bool) : Bool :=
  if trigger_mode = 0 then true
  else scan_trigger trigger_value rising buffer

/-! ## Command protocol and acquisition controller (main sketch) -/

/-- Leading-digit run of `atol`/`atof`: accumulate decimal digits, stop at the
first non-digit. -/
def parseDigits : List Char → ℕ → ℕ
  | c :: rest, acc =>
    if c.isDigit then parseDigits rest (acc * 10 + (c.toNat - 48)) else acc
  | [], acc => acc

/-- Arduino `String::toInt` (C `atol`): skip leading whitespace, optional
sign, then leading digits; 0 when no digits. Parsed magnitudes are modelled
unbounded (the commands under study stay far below `long` overflow).
Arduino `String` contents are modelled as `List Char`. -/
def str_toInt (s : List Char) : ℤ :=
  match s.dropWhile Char.isWhitespace with
  | '-' :: rest => -(parseDigits rest 0 : ℤ)
  | '+' :: rest => (parseDigits rest 0 : ℤ)
  | l => (parseDigits l 0 : ℤ)

/-- The fractional digits of `atof`, accumulated with their place value. -/
def parseFrac : List Char → ℚ → ℚ → ℚ
  | c :: rest, scale, acc =>
    if c.isDigit then
      parseFrac rest (scale / 10) (acc + scale * ((c.toNat : ℚ) - 48))
    else acc
  | [], _, acc => acc

/-- Arduino `String::toFloat` (C `atof`, exponent-free commands): optional
sign, integer digits, optional `.` and fraction digits; 0 when no digits. -/
def str_toFloat (s : List Char) : ℚ :=
  let core : List Char → ℚ := fun l =>
    let intPart : ℚ := (parseDigits (l.takeWhile Char.isDigit) 0 : ℕ)
    match l.dropWhile Char.isDigit with
    | '.' :: frac => intPart + parseFrac frac (1/10) 0
    | _ => intPart
  match s.dropWhile Char.isWhitespace with
  | '-' :: rest => -(core rest)
  | '+' :: rest => core rest
  | l => core l

/-- Arduino `String::trim()`: remove leading and trailing whitespace. -/
def strTrim (l : List Char) : List Char :=
  ((l.dropWhile Char.isWhitespace).reverse.dropWhile Char.isWhitespace).reverse

/-- The firmware's global acquisition configuration (top of the main sketch).
`trigger_mode` and `probe_attenuation` are `uint8_t`, `sample_rate` is
`uint32_t`, `trigger_level` is a `float` in volts, `trigger_edge` a `bool`
(true = rising). -/
structure Config where
  is_running : Bool
  sample_rate : ℕ
  trigger_mode : ℕ
  trigger_level : ℚ
  trigger_edge : Bool
  probe_attenuation : ℕ
  deriving DecidableEq, Repr

/-- The initialisers of the globals:
`is_running = true; sample_rate = 100000; trigger_mode = 0;
trigger_level = 1.65; trigger_edge = true; probe_attenuation = 1;`. -/
def initial_config : Config :=
  { is_running := true
    sample_rate := 100000
    trigger_mode := 0
    trigger_level := 33/20
    trigger_edge := true
    probe_attenuation := 1 }

/-- One serial emission of the firmware, structured instead of rendered to
characters (decimal formatting of the float fields is display-only). -/
inductive Output where
  | ack : String → Output
  | pong : Output
  | status : Bool → ℕ → ℕ → ℚ → Bool → Output
  | dataFrame : ℕ → ℚ → List ℕ → Output
  deriving DecidableEq, Repr

/-- `send_data()`: computes `peak_mean` and `calculate_frequency` over the
buffer and prints one `DATA:` line with the sample rate, the frequency, the
probe-scaled Vpp and mean (those two pass through the hardware calibration
`to_voltage`, external to this model, and are omitted from the frame), and
the raw samples. -/
def send_data (cfg : Config) (buffer : List ℕ) : Output :=
  let pm := peak_mean buffer
  let fp := calculate_frequency buffer (cfg.sample_rate : ℚ) pm.2.2
  Output.dataFrame cfg.sample_rate fp.1 buffer

/-- The PROBE branch's validation:
`probe_attenuation = cmd.substring(6).toInt();
if (probe_attenuation != 1 && probe_attenuation != 10 &&
probe_attenuation != 100) probe_attenuation = 1;`. -/
def probe_clamp (p : ℕ) : ℕ :=
  if p ≠ 1 ∧ p ≠ 10 ∧ p ≠ 100 then 1 else p

/-- The if/else dispatch of `process_command`, applied to the
already-trimmed line. -/
def process_command_go (cfg : Config) (buffer : List ℕ) (cmd : List Char) :
    Config × List Output :=
  if cmd = "START".data then
    ({ cfg with is_running := true }, [Output.ack "START"])
  else if cmd = "STOP".data then
    ({ cfg with is_running := false }, [Output.ack "STOP"])
  else if "RATE:".data.isPrefixOf cmd then
    ({ cfg with sample_rate := ((str_toInt (cmd.drop 5)) % (2 ^ 32)).toNat },
      [Output.ack "RATE"])
  else if "TRIG_MODE:".data.isPrefixOf cmd then
    ({ cfg with trigger_mode := ((str_toInt (cmd.drop 10)) % 256).toNat },
      [Output.ack "TRIG_MODE"])
  else if "TRIG_LEVEL:".data.isPrefixOf cmd then
    ({ cfg with trigger_level := str_toFloat (cmd.drop 11) },
      [Output.ack "TRIG_LEVEL"])
  else if "TRIG_EDGE:".data.isPrefixOf cmd then
    ({ cfg with trigger_edge := str_toInt (cmd.drop 10) = 1 },
      [Output.ack "TRIG_EDGE"])
  else if cmd = "GET_DATA".data then
    (cfg, [send_data cfg buffer])
  else if cmd = "PING".data then
    (cfg, [Output.pong])
  else if "PROBE:".data.isPrefixOf cmd then
    ({ cfg with probe_attenuation :=
        probe_clamp ((str_toInt (cmd.drop 6)) % 256).toNat },
      [Output.ack "PROBE"])
  else if cmd = "STATUS".data then
    (cfg, [Output.status cfg.is_running cfg.sample_rate cfg.trigger_mode
      cfg.trigger_level cfg.trigger_edge])
  else
    (cfg, [])

/-- `process_command(String cmd)` from the main sketch: `cmd.trim()` then the
if/else chain over the command keywords, mutating the globals and printing
acknowledgments. `buffer` stands for the global `adc_buffer` read by the
`GET_DATA` branch. Assignments into `uint8_t`/`uint32_t` globals reduce the
parsed value modulo the target width; the `RATE:` branch's I2S reconfigure
is hardware-external and has no modelled state. -/
def process_command (cfg : Config) (buffer : List ℕ) (cmd0 : List Char) :
    Config × List Output :=
  process_command_go cfg buffer (strTrim cmd0)

/-- The command keywords recognised by the if/else chain of
`process_command`, on the already-trimmed line. -/
def recognized (cmd : List Char) : Bool :=
  cmd = "START".data || cmd = "STOP".data || "RATE:".data.isPrefixOf cmd ||
  "TRIG_MODE:".data.isPrefixOf cmd || "TRIG_LEVEL:".data.isPrefixOf cmd ||
  "TRIG_EDGE:".data.isPrefixOf cmd || cmd = "GET_DATA".data ||
  cmd = "PING".data || "PROBE:".data.isPrefixOf cmd || cmd = "STATUS".data

/-- The acquisition part of `loop()` (the body of `if (is_running)`), with the
freshly sampled buffer (`ADC_Sampling(adc_buffer)`, hardware-external) passed
in: `trigger_v = trigger_level / 3.3 * 4095.0;
triggered = check_trigger(adc_buffer, BUFFER_SIZE, trigger_v, trigger_edge);
if (trigger_mode == 0 || triggered) { send_data(); if (trigger_mode == 2)
is_running = false; }`. Returns the new configuration and the emissions. -/
def loop_cycle (cfg : Config) (buffer : List ℕ) : Config × List Output :=
  if cfg.is_running then
    let trigger_v := cfg.trigger_level / (33/10) * 4095
    let triggered := check_trigger cfg.trigger_mode buffer trigger_v
      cfg.trigger_edge
    if cfg.trigger_mode = 0 ∨ triggered then
      let out := [send_data cfg buffer]
      if cfg.trigger_mode = 2 then
        ({ cfg with is_running := false }, out)
      else (cfg, out)
    else (cfg, [])
  else (cfg, [])

/-- Whether an emission is a `DATA:` frame. -/
def is_data_frame : Output → Bool
  | Output.dataFrame _ _ _ => true
  | _ => false

/-- Stated for comparison only — `calculate_frequency` as the claim words it:
rising edges are transitions from strictly-below `mean` to at-or-above
`mean`. -/
def calculate_frequency_claim (buffer : List ℕ) (sample_rate mean : ℚ) :
    ℚ × ℚ :=
  let count := (buffer.zip buffer.tail).countP
    (fun p => decide ((p.1 : ℚ) < mean) && decide (mean ≤ (p.2 : ℚ)))
  if 1 < count then
    let freq := (count : ℚ) / ((buffer.length : ℚ) / sample_rate)
    (freq, 1 / freq)
  else (0, 0)

/-- A configuration in Normal mode with a trigger level of 0.002 V, whose
inline Sample conversion (≈ 2.48) is non-integral. -/
def c7_config : Config :=
  { initial_config with trigger_mode := 1, trigger_level := 2/1000 }

/-! ## List helper lemmas -/

theorem lastN_length {α : Type} (n : ℕ) (l : List α) :
    (lastN n l).length = min n l.length := by
  simp [lastN]; omega

theorem lastN_all {α : Type} (n : ℕ) (l : List α) (h : l.length ≤ n) :
    lastN n l = l := by
  simp [lastN, Nat.sub_eq_zero_of_le h]

theorem lastN_concat {α : Type} (K : ℕ) (hK : 1 ≤ K) (l : List α) (x : α) :
    lastN K (l ++ [x]) = lastN (K - 1) l ++ [x] := by
  simp only [lastN, List.length_append, List.length_singleton,
    List.drop_append_eq_append_drop]
  have h2 : l.length + 1 - K - l.length = 0 := by omega
  have h1 : l.length + 1 - K = l.length - (K - 1) := by omega
  rw [h2, h1]
  rfl

theorem lastN_concat_drop {α : Type} (n : ℕ) (l : List α) (x : α)
    (h : n ≤ l.length) :
    (lastN n l ++ [x]).drop 1 = lastN n (l ++ [x]) := by
  simp only [lastN, List.drop_append_eq_append_drop, List.drop_drop,
    List.length_drop, List.length_append, List.length_singleton]
  have h1 : l.length - n + 1 = l.length + 1 - n := by omega
  have h2 : 1 - (l.length - (l.length - n)) = l.length + 1 - n - l.length := by
    omega
  rw [h1, h2]

theorem set_append_length {α : Type} (w : List α) (j r : α) :
    (w ++ [j]).set w.length r = w ++ [r] := by
  induction w with
  | nil => rfl
  | cons a w ih => simp [List.set, ih]

/-! ## Mean-filter characterisation -/

/-- The shift loop on a nonempty array: it sums everything but the last
cell and moves each cell one slot left, duplicating the last cell. -/
theorem mf_shift_append (xs : List ℚ) (r : ℚ) :
    mf_shift (xs ++ [r]) = (xs.sum, (xs ++ [r]).drop 1 ++ [r]) := by
  induction xs with
  | nil => simp [mf_shift]
  | cons x xs ih =>
    cases xs with
    | nil => simp [mf_shift]
    | cons y t =>
      simp only [List.cons_append] at ih ⊢
      simp only [mf_shift, ih]
      simp [List.sum_cons]

/-- One `filter` call on a well-formed state `w ++ [j]` (`|w| = K - 1`; the
last slot `j` is scratch): the output is the mean of `w` plus the new
reading, and the new state keeps the last `K - 2` window entries followed by
the reading twice. -/
theorem mean_filter_filter_spec (K : ℕ) (w : List ℚ) (j r : ℚ)
    (hw : w.length = K - 1) :
    mean_filter_filter K (w ++ [j]) r =
      ((w.sum + r) / (K : ℚ), (w ++ [r]).drop 1 ++ [r]) := by
  have hset : (w ++ [j]).set (K - 1) r = w ++ [r] := by
    rw [← hw]; exact set_append_length w j r
  simp only [mean_filter_filter, hset, mf_shift_append]

/-! ## Trigger-scan characterisation -/

theorem scan_trigger_rising_iff (level : ℚ) :
    ∀ l : List ℕ, scan_trigger level true l = true ↔
      ∃ i, i + 1 < l.length ∧ ((l.getD i 0 : ℕ) : ℚ) < level ∧
        level ≤ ((l.getD (i + 1) 0 : ℕ) : ℚ)
  | [] => by simp [scan_trigger]
  | [x] => by simp [scan_trigger]
  | x :: y :: rest => by
    rw [scan_trigger]
    by_cases h : (x : ℚ) < level ∧ (y : ℚ) ≥ level
    · rw [if_pos rfl, if_pos h]
      refine iff_of_true rfl ?_
      exact ⟨0, by simp [Nat.succ_lt_succ], by simpa using h.1, by simpa using h.2⟩
    · rw [if_pos rfl, if_neg h, scan_trigger_rising_iff level (y :: rest)]
      constructor
      · rintro ⟨i, hi, h1, h2⟩
        refine ⟨i + 1, ?_, ?_, ?_⟩
        · simpa using Nat.succ_lt_succ hi
        · simpa using h1
        · simpa using h2
      · rintro ⟨i, hi, h1, h2⟩
        match i with
        | 0 =>
          exact absurd ⟨by simpa using h1, by simpa using h2⟩ h
        | i + 1 =>
          refine ⟨i, ?_, ?_, ?_⟩
          · simpa using Nat.lt_of_succ_lt_succ hi
          · simpa using h1
          · simpa using h2

theorem scan_trigger_falling_iff (level : ℚ) :
    ∀ l : List ℕ, scan_trigger level false l = true ↔
      ∃ i, i + 1 < l.length ∧ level < ((l.getD i 0 : ℕ) : ℚ) ∧
        ((l.getD (i + 1) 0 : ℕ) : ℚ) ≤ level
  | [] => by simp [scan_trigger]
  | [x] => by simp [scan_trigger]
  | x :: y :: rest => by
    rw [scan_trigger]
    by_cases h : (x : ℚ) > level ∧ (y : ℚ) ≤ level
    · rw [if_neg (by simp), if_pos h]
      refine iff_of_true rfl ?_
      exact ⟨0, by simp [Nat.succ_lt_succ], by simpa using h.1, by simpa using h.2⟩
    · rw [if_neg (by simp), if_neg h, scan_trigger_falling_iff level (y :: rest)]
      constructor
      · rintro ⟨i, hi, h1, h2⟩
        refine ⟨i + 1, ?_, ?_, ?_⟩
        · simpa using Nat.succ_lt_succ hi
        · simpa using h1
        · simpa using h2
      · rintro ⟨i, hi, h1, h2⟩
        match i with
        | 0 =>
          exact absurd ⟨by simpa using h1, by simpa using h2⟩ h
        | i + 1 =>
          refine ⟨i, ?_, ?_, ?_⟩
          · simpa using Nat.lt_of_succ_lt_succ hi
          · simpa using h1
          · simpa using h2

/-! ## Claim C2 — `from_voltage` -/

/-- C2 counterexample: `from_voltage` does not clamp (at 6.6 V it returns
code 8190, above the claimed ceiling 4095) and truncates rather than rounds
(at 1 V it returns 1240 while `round(1/3.3*4095) = 1241`). -/
theorem from_voltage_counterexample :
    from_voltage (33/5) ≠ from_voltage_claim (33/5) ∧
    from_voltage (33/5) = 8190 ∧ from_voltage_claim (33/5) = 4095 ∧
    from_voltage 1 = 1240 ∧ round ((1 : ℚ) / (33/10) * 4095) = 1241 := by
  refine ⟨?_, ?_, ?_, ?_, ?_⟩ <;>
    norm_num [from_voltage, from_voltage_claim, ratTrunc, round_eq]

/-- C2 (amended): `from_voltage v` is the truncation of `v / 3.3 * 4095`
toward zero, with no rounding and no clamping; it is monotone non-decreasing
on non-negative voltages, maps 0 V to code 0 and full scale 3.3 V to 4095,
but keeps growing past 4095 for voltages above full scale (6.6 V ↦ 8190). -/
theorem from_voltage_amended :
    (∀ v w : ℚ, 0 ≤ v → v ≤ w → from_voltage v ≤ from_voltage w) ∧
    from_voltage 0 = 0 ∧ from_voltage (33/10) = 4095 ∧
    from_voltage (33/5) = 8190 := by
  refine ⟨fun v w hv hvw => ?_, by norm_num [from_voltage, ratTrunc],
    by norm_num [from_voltage, ratTrunc], by norm_num [from_voltage, ratTrunc]⟩
  have hv' : (0 : ℚ) ≤ v / (33/10) * 4095 :=
    mul_nonneg (div_nonneg hv (by norm_num)) (by norm_num)
  have hw' : (0 : ℚ) ≤ w / (33/10) * 4095 :=
    mul_nonneg (div_nonneg (hv.trans hvw) (by norm_num)) (by norm_num)
  have harg : v / (33/10) * 4095 ≤ w / (33/10) * 4095 := by
    have := (div_le_div_iff_of_pos_right (c := (33/10 : ℚ)) (by norm_num)).mpr hvw
    exact mul_le_mul_of_nonneg_right this (by norm_num)
  unfold from_voltage ratTrunc
  rw [if_neg (not_lt.mpr hv'), if_neg (not_lt.mpr hw')]
  exact Int.floor_le_floor harg

/-- Witness for the amended C2 theorem at 1 V ≤ 2 V. -/
theorem from_voltage_amended_witness :
    from_voltage 1 ≤ from_voltage 2 ∧ from_voltage (33/5) = 8190 :=
  ⟨from_voltage_amended.1 1 2 (by norm_num) (by norm_num),
    from_voltage_amended.2.2.2⟩

/-! ## Claim C4 — `check_trigger` -/

/-- C4: `check_trigger` returns true unconditionally in Auto mode
(`trigger_mode = 0`); otherwise, for rising edge it is true iff some adjacent
pair satisfies `buffer[i-1] < level ∧ buffer[i] ≥ level`, for falling edge
iff some pair satisfies `buffer[i-1] > level ∧ buffer[i] ≤ level`; and with
rising edge a monotonically decreasing buffer never triggers. -/
theorem check_trigger_correct (tm : ℕ) (buffer : List ℕ) (level : ℚ) :
    (tm = 0 → ∀ rising, check_trigger tm buffer level rising = true) ∧
    (tm ≠ 0 →
      (check_trigger tm buffer level true = true ↔
        ∃ i, i + 1 < buffer.length ∧ ((buffer.getD i 0 : ℕ) : ℚ) < level ∧
          level ≤ ((buffer.getD (i + 1) 0 : ℕ) : ℚ)) ∧
      (check_trigger tm buffer level false = true ↔
        ∃ i, i + 1 < buffer.length ∧ level < ((buffer.getD i 0 : ℕ) : ℚ) ∧
          ((buffer.getD (i + 1) 0 : ℕ) : ℚ) ≤ level)) ∧
    (tm ≠ 0 → List.Pairwise (· ≥ ·) buffer →
      check_trigger tm buffer level true = false) := by
  refine ⟨fun h0 rising => by simp [check_trigger, h0], fun hne => ?_,
    fun hne hmono => ?_⟩
  · simp only [check_trigger, if_neg hne]
    exact ⟨scan_trigger_rising_iff level buffer,
      scan_trigger_falling_iff level buffer⟩
  · simp only [check_trigger, if_neg hne]
    rw [Bool.eq_false_iff]
    intro hscan
    obtain ⟨i, hi, h1, h2⟩ := (scan_trigger_rising_iff level buffer).mp hscan
    have hlt : buffer.getD i 0 < buffer.getD (i + 1) 0 := by
      exact_mod_cast h1.trans_le h2
    have hgets := List.pairwise_iff_get.mp hmono ⟨i, by omega⟩ ⟨i + 1, hi⟩
      (by simp)
    rw [List.getD_eq_getElem buffer 0 (by omega : i < buffer.length),
      List.getD_eq_getElem buffer 0 hi] at hlt
    simp only [List.get_eq_getElem] at hgets
    exact absurd hgets (not_le.mpr hlt)

/-- Witness for C4: Auto mode triggers on any buffer; Normal + rising never
triggers on the strictly decreasing buffer `[6, 5, 4]`. -/
theorem check_trigger_correct_witness :
    check_trigger 0 [3, 2, 1] 5 true = true ∧
    check_trigger 1 [6, 5, 4] 5 true = false :=
  ⟨(check_trigger_correct 0 [3, 2, 1] 5).1 rfl true,
    (check_trigger_correct 1 [6, 5, 4] 5).2.2 (by decide) (by decide)⟩

/-! ## Claim C10 — initial state -/

/-- C10: the globals initialise to Running with trigger mode Auto, and the
very first acquisition cycle emits exactly one DATA frame whatever the buffer
contains — no START command is needed. -/
theorem initial_state_emits :
    initial_config.is_running = true ∧ initial_config.trigger_mode = 0 ∧
    ∀ buffer : List ℕ,
      (loop_cycle initial_config buffer).2.countP is_data_frame = 1 := by
  refine ⟨rfl, rfl, fun buffer => ?_⟩
  simp [loop_cycle, initial_config, send_data, is_data_frame]

/-! ## Claim C8 — unknown commands -/

/-- C8: an input line whose trimmed form matches none of the recognised
command shapes produces no output and leaves the whole configuration
unchanged. -/
theorem unknown_command_ignored (cfg : Config) (buffer : List ℕ)
    (cmd : List Char) (h : recognized (strTrim cmd) = false) :
    process_command cfg buffer cmd = (cfg, []) := by
  simp only [recognized, Bool.or_eq_false_iff, decide_eq_false_iff_not] at h
  obtain ⟨⟨⟨⟨⟨⟨⟨⟨⟨h1, h2⟩, h3⟩, h4⟩, h5⟩, h6⟩, h7⟩, h8⟩, h9⟩, h10⟩ := h
  simp only [process_command, process_command_go, h1, h2, h4, h7, h8, h10,
    if_false]
  rw [if_neg (by simp [h3]), if_neg (by simp [h4]), if_neg (by simp [h5]),
    if_neg (by simp [h6]), if_neg (by simp [h9])]

/-- Witness for C8 at the unknown line `HELLO`. -/
theorem unknown_command_ignored_witness :
    recognized (strTrim "HELLO".data) = false ∧
    process_command initial_config [] "HELLO".data = (initial_config, []) :=
  ⟨by decide, unknown_command_ignored initial_config [] "HELLO".data (by decide)⟩

/-! ## Claim C5 — Single-shot emission -/

/-- `STATUS` on any configuration reports the live field values. -/
theorem process_command_status (cfg : Config) (buffer : List ℕ) :
    process_command cfg buffer "STATUS".data =
      (cfg, [Output.status cfg.is_running cfg.sample_rate cfg.trigger_mode
        cfg.trigger_level cfg.trigger_edge]) := rfl

/-- C5: while Running, a cycle emits exactly one DATA frame iff the trigger
mode is Auto or the trigger evaluator fired; after an emission in Single
mode (`trigger_mode = 2`) the controller is Stopped and a subsequent STATUS
reports running = 0. -/
theorem single_mode_one_frame (cfg : Config) (buffer : List ℕ)
    (hrun : cfg.is_running = true) :
    ((loop_cycle cfg buffer).2.countP is_data_frame = 1 ↔
      (cfg.trigger_mode = 0 ∨ check_trigger cfg.trigger_mode buffer
        (cfg.trigger_level / (33/10) * 4095) cfg.trigger_edge = true)) ∧
    (cfg.trigger_mode = 2 → (loop_cycle cfg buffer).2 ≠ [] →
      (loop_cycle cfg buffer).1.is_running = false ∧
      ∀ buf2 : List ℕ,
        process_command (loop_cycle cfg buffer).1 buf2 "STATUS".data =
          ((loop_cycle cfg buffer).1,
           [Output.status false (loop_cycle cfg buffer).1.sample_rate
             (loop_cycle cfg buffer).1.trigger_mode
             (loop_cycle cfg buffer).1.trigger_level
             (loop_cycle cfg buffer).1.trigger_edge])) := by
  have hcycle : loop_cycle cfg buffer =
      if cfg.trigger_mode = 0 ∨ check_trigger cfg.trigger_mode buffer
          (cfg.trigger_level / (33/10) * 4095) cfg.trigger_edge = true then
        if cfg.trigger_mode = 2 then
          ({ cfg with is_running := false }, [send_data cfg buffer])
        else (cfg, [send_data cfg buffer])
      else (cfg, []) := by
    simp only [loop_cycle, hrun, if_true]
  by_cases h2 : cfg.trigger_mode = 2
  · by_cases htrig : check_trigger cfg.trigger_mode buffer
        (cfg.trigger_level / (33/10) * 4095) cfg.trigger_edge = true
    · rw [h2] at htrig
      simp only [hcycle, h2, htrig]
      refine ⟨by simp [is_data_frame, send_data], fun _ _ => ⟨rfl, ?_⟩⟩
      intro buf2
      exact process_command_status _ buf2
    · rw [h2] at htrig
      simp [hcycle, h2, htrig, is_data_frame]
  · by_cases hcond : cfg.trigger_mode = 0 ∨ check_trigger cfg.trigger_mode
        buffer (cfg.trigger_level / (33/10) * 4095) cfg.trigger_edge = true
    · simp [hcycle, hcond, h2, is_data_frame, send_data]
    · simp [hcycle, hcond, h2, is_data_frame]

/-- Witness for C5: arming Single mode and acquiring a buffer that rises
through the trigger level emits one DATA frame and stops the controller. -/
theorem single_mode_one_frame_witness :
    (loop_cycle { initial_config with trigger_mode := 2 } [0, 4095]).2.countP
        is_data_frame = 1 ∧
    (loop_cycle { initial_config with trigger_mode := 2 }
        [0, 4095]).1.is_running = false := by
  have h := single_mode_one_frame { initial_config with trigger_mode := 2 }
    [0, 4095] rfl
  have htrig : check_trigger
      ({ initial_config with trigger_mode := 2 } : Config).trigger_mode
      [0, 4095]
      (({ initial_config with trigger_mode := 2 } : Config).trigger_level /
        (33/10) * 4095)
      ({ initial_config with trigger_mode := 2 } : Config).trigger_edge
      = true := by
    norm_num [initial_config, check_trigger, scan_trigger]
  have hc := h.1.mpr (Or.inr htrig)
  exact ⟨hc, (h.2 rfl (fun hnil => by simp [hnil] at hc)).1⟩

/-! ## Claim C1 — configuration enumerations -/

/-- C1 counterexample: `TRIG_MODE:5` is acknowledged and stores
`trigger_mode = 5`, outside the claimed closed enumeration `{0, 1, 2}` —
the TRIG_MODE branch neither clamps nor rejects. -/
theorem trig_mode_stored_invalid :
    (process_command initial_config [] "TRIG_MODE:5".data).1.trigger_mode
      = 5 ∧
    (process_command initial_config [] "TRIG_MODE:5".data).2 =
      [Output.ack "TRIG_MODE"] ∧
    (process_command initial_config [] "TRIG_MODE:5".data).1.trigger_mode ∉
      ({0, 1, 2} : Finset ℕ) := by decide

/-- C1 (amended): `process_command` keeps `probe_attenuation` inside
`{1, 10, 100}` (the PROBE branch clamps every other value to 1) and
`trigger_edge` is a boolean by construction, but the TRIG_MODE branch stores
the parsed value (mod 256) without validation, so `trigger_mode` can leave
`{0, 1, 2}` — e.g. `TRIG_MODE:5` stores 5. -/
theorem config_enums_amended :
    (∀ (cfg : Config) (buffer : List ℕ) (cmd : List Char),
      cfg.probe_attenuation ∈ ({1, 10, 100} : Finset ℕ) →
      (process_command cfg buffer cmd).1.probe_attenuation ∈
        ({1, 10, 100} : Finset ℕ)) ∧
    (process_command initial_config [] "TRIG_MODE:5".data).1.trigger_mode
      = 5 := by
  refine ⟨fun cfg buffer cmd hp => ?_, by decide⟩
  have hclamp : ∀ p : ℕ, probe_clamp p ∈ ({1, 10, 100} : Finset ℕ) := by
    intro p
    unfold probe_clamp
    split_ifs with h
    · decide
    · simp only [Finset.mem_insert, Finset.mem_singleton]
      tauto
  unfold process_command process_command_go
  by_cases h1 : strTrim cmd = "START".data
  · rw [if_pos h1]; exact hp
  rw [if_neg h1]
  by_cases h2 : strTrim cmd = "STOP".data
  · rw [if_pos h2]; exact hp
  rw [if_neg h2]
  by_cases h3 : "RATE:".data.isPrefixOf (strTrim cmd) = true
  · rw [if_pos h3]; exact hp
  rw [if_neg h3]
  by_cases h4 : "TRIG_MODE:".data.isPrefixOf (strTrim cmd) = true
  · rw [if_pos h4]; exact hp
  rw [if_neg h4]
  by_cases h5 : "TRIG_LEVEL:".data.isPrefixOf (strTrim cmd) = true
  · rw [if_pos h5]; exact hp
  rw [if_neg h5]
  by_cases h6 : "TRIG_EDGE:".data.isPrefixOf (strTrim cmd) = true
  · rw [if_pos h6]; exact hp
  rw [if_neg h6]
  by_cases h7 : strTrim cmd = "GET_DATA".data
  · rw [if_pos h7]; exact hp
  rw [if_neg h7]
  by_cases h8 : strTrim cmd = "PING".data
  · rw [if_pos h8]; exact hp
  rw [if_neg h8]
  by_cases h9 : "PROBE:".data.isPrefixOf (strTrim cmd) = true
  · rw [if_pos h9]
    exact hclamp _
  rw [if_neg h9]
  by_cases h10 : strTrim cmd = "STATUS".data
  · rw [if_pos h10]; exact hp
  · rw [if_neg h10]; exact hp

/-- Witness for the amended C1 theorem: `PROBE:7` clamps to 1, keeping the
attenuation in its enumeration. -/
theorem config_enums_amended_witness :
    initial_config.probe_attenuation ∈ ({1, 10, 100} : Finset ℕ) ∧
    (process_command initial_config [] "PROBE:7".data).1.probe_attenuation ∈
      ({1, 10, 100} : Finset ℕ) :=
  ⟨by decide, config_enums_amended.1 initial_config [] "PROBE:7".data
    (by decide)⟩

/-! ## Claim C3 — `calculate_frequency` -/

/-- The stateful edge-counting loop counts exactly the adjacent pairs that
step from at-or-below `mean` to strictly above `mean`. -/
theorem count_crossings_eq (mean : ℚ) :
    ∀ (rest : List ℕ) (x : ℕ),
      count_crossings mean (decide ((x : ℚ) > mean)) rest =
        ((x :: rest).zip rest).countP
          (fun p => decide ((p.1 : ℚ) ≤ mean) && decide (mean < (p.2 : ℚ)))
  | [], x => by simp [count_crossings]
  | y :: t, x => by
    rw [count_crossings]
    rw [count_crossings_eq mean t y]
    have hnot : (!decide ((x : ℚ) > mean)) = decide ((x : ℚ) ≤ mean) := by
      rw [← decide_not, decide_eq_decide]
      exact not_lt
    simp only [List.zip_cons_cons, List.countP_cons, hnot, gt_iff_lt]
    omega

/-- C3 counterexample: on the buffer `[5,10,5,10,5,10]` with `mean = 5` the
code counts three rising edges (each `5` is classified low because the test
is strict `>`), reporting frequency 3 at `sample_rate = 6`; the claim's
below/at-or-above classification counts zero transitions and so demands
frequency 0. -/
theorem calculate_frequency_counterexample :
    calculate_frequency [5, 10, 5, 10, 5, 10] 6 5 = (3, 1/3) ∧
    calculate_frequency_claim [5, 10, 5, 10, 5, 10] 6 5 = (0, 0) ∧
    calculate_frequency [5, 10, 5, 10, 5, 10] 6 5 ≠
      calculate_frequency_claim [5, 10, 5, 10, 5, 10] 6 5 := by
  refine ⟨?_, ?_, ?_⟩ <;>
    norm_num [calculate_frequency, calculate_frequency_claim, count_crossings,
      List.countP, List.countP.go]

/-- C3 (amended): `calculate_frequency` counts rising edges as transitions
from at-or-below `mean` to strictly-above `mean` (not from strictly-below to
at-or-above); when that count exceeds 1 it returns
`frequency = count / (N / sample_rate)` with `period = 1/frequency`, and
otherwise returns `(0, 0)`. -/
theorem calculate_frequency_amended (buffer : List ℕ) (sample_rate mean : ℚ) :
    calculate_frequency buffer sample_rate mean =
      (if 1 < (buffer.zip buffer.tail).countP
          (fun p => decide ((p.1 : ℚ) ≤ mean) && decide (mean < (p.2 : ℚ)))
      then
        (((buffer.zip buffer.tail).countP
            (fun p => decide ((p.1 : ℚ) ≤ mean) && decide (mean < (p.2 : ℚ)))
              : ℚ) /
          ((buffer.length : ℚ) / sample_rate),
          1 / (((buffer.zip buffer.tail).countP
            (fun p => decide ((p.1 : ℚ) ≤ mean) && decide (mean < (p.2 : ℚ)))
              : ℚ) /
          ((buffer.length : ℚ) / sample_rate)))
      else (0, 0)) := by
  cases buffer with
  | nil => simp [calculate_frequency, count_crossings]
  | cons x rest =>
    unfold calculate_frequency
    simp only [List.headD, List.tail_cons, Nat.cast_id]
    rw [count_crossings_eq mean rest x]

/-! ## Claim C7 — trigger threshold conversion -/

/-- C7 counterexample: with trigger level 0.002 V (Normal mode, rising), the
inline threshold `trigger_level/3.3*4095 ≈ 2.48` makes the cycle on buffer
`[2, 3]` emit, while `from_voltage(trigger_level) = 2` (truncated) does not
trigger on the same buffer — the two conversions disagree on this buffer. -/
theorem inline_threshold_counterexample :
    (loop_cycle c7_config [2, 3]).2.countP is_data_frame = 1 ∧
    check_trigger c7_config.trigger_mode [2, 3]
      ((from_voltage c7_config.trigger_level : ℤ) : ℚ)
      c7_config.trigger_edge = false ∧
    from_voltage c7_config.trigger_level = 2 := by
  refine ⟨?_, ?_, ?_⟩ <;>
    norm_num [loop_cycle, c7_config, initial_config, check_trigger,
      scan_trigger, from_voltage, ratTrunc, is_data_frame, send_data]

/-- C7 (amended): the main loop passes the un-truncated conversion
`trigger_level / 3.3 * 4095` to `check_trigger`, while `from_voltage`
truncates it to an integer code; the two coincide — and hence the trigger
decisions agree on every buffer — exactly when the converted value is an
integer. -/
theorem inline_threshold_amended (v : ℚ) (hv : 0 ≤ v) :
    ((from_voltage v : ℚ) = v / (33/10) * 4095 ↔
      ∃ n : ℤ, v / (33/10) * 4095 = (n : ℚ)) ∧
    ∀ (tm : ℕ) (buffer : List ℕ) (rising : Bool) (n : ℤ),
      v / (33/10) * 4095 = (n : ℚ) →
      check_trigger tm buffer (v / (33/10) * 4095) rising =
        check_trigger tm buffer ((from_voltage v : ℤ) : ℚ) rising := by
  have harg : (0:ℚ) ≤ v / (33/10) * 4095 :=
    mul_nonneg (div_nonneg hv (by norm_num)) (by norm_num)
  have hfv : from_voltage v = ⌊v / (33/10) * 4095⌋ := by
    unfold from_voltage ratTrunc
    rw [if_neg (not_lt.mpr harg)]
  constructor
  · constructor
    · intro h
      exact ⟨from_voltage v, h.symm⟩
    · rintro ⟨n, hn⟩
      rw [hfv, hn]
      simp
  · intro tm buffer rising n hn
    have hcast : ((from_voltage v : ℤ) : ℚ) = v / (33/10) * 4095 := by
      rw [hfv, hn]
      simp
    rw [hcast]

/-- Witness for the amended C7 theorem at full scale 3.3 V, where the
conversion is the integer 4095. -/
theorem inline_threshold_amended_witness :
    ((from_voltage (33/10) : ℚ) = (33/10 : ℚ) / (33/10) * 4095) ∧
    check_trigger 1 [0, 4095] ((33/10 : ℚ) / (33/10) * 4095) true =
      check_trigger 1 [0, 4095] ((from_voltage (33/10) : ℤ) : ℚ) true := by
  have h := inline_threshold_amended (33/10) (by norm_num)
  exact ⟨h.1.mpr ⟨4095, by norm_num⟩, h.2 1 [0, 4095] true 4095 (by norm_num)⟩

/-! ## Claim C6 — `peak_mean` -/

/-- A 5-tap mean filter saturated with `c` returns `c` on input `c` and keeps
its state. -/
theorem mean_filter_const (c : ℚ) :
    mean_filter_filter 5 (List.replicate 5 c) c = (c, List.replicate 5 c) := by
  have h : List.replicate 5 c = [c, c, c, c] ++ [c] := rfl
  rw [h, mean_filter_filter_spec 5 [c, c, c, c] c c rfl]
  refine Prod.ext ?_ rfl
  show ([c, c, c, c].sum + c) / 5 = c
  simp [List.sum_cons]
  ring

/-- On a constant buffer the `peak_mean` loop keeps max and min at `c` and
adds `n · c` to the raw accumulator. -/
theorem peak_mean_go_const (c : ℕ) :
    ∀ (n : ℕ) (acc : ℚ),
      peak_mean_go (List.replicate 5 (c : ℚ)) (c : ℚ) (c : ℚ) acc
        (List.replicate n c) = ((c : ℚ), (c : ℚ), acc + n * (c : ℚ))
  | 0, acc => by simp [peak_mean_go]
  | n + 1, acc => by
    rw [List.replicate_succ]
    simp only [peak_mean_go, gt_iff_lt]
    rw [show ((c : ℚ) :: List.replicate 4 (c : ℚ)) = List.replicate 5 (c : ℚ)
        from rfl,
      mean_filter_const]
    rw [show ((c : ℚ), List.replicate 5 (c : ℚ)).1 = (c : ℚ) from rfl,
      show ((c : ℚ), List.replicate 5 (c : ℚ)).2 = List.replicate 5 (c : ℚ)
        from rfl,
      ite_self, peak_mean_go_const c n (acc + (c : ℚ))]
    refine Prod.ext rfl (Prod.ext rfl ?_)
    push_cast
    ring

/-- The accumulator component of the `peak_mean` loop is the raw sum of the
samples it consumed. -/
theorem peak_mean_go_acc :
    ∀ (l : List ℕ) (d : List ℚ) (maxv minv acc : ℚ),
      (peak_mean_go d maxv minv acc l).2.2 =
        acc + (l.map (fun b : ℕ => (b : ℚ))).sum
  | [], d, maxv, minv, acc => by simp [peak_mean_go]
  | b :: rest, d, maxv, minv, acc => by
    rw [peak_mean_go, peak_mean_go_acc rest]
    simp [List.sum_cons]
    ring

/-- C6: `peak_mean` tracks max/min on the 5-tap-filtered stream while the
mean accumulates the raw samples: on a constant buffer all three outputs
equal the constant, and on every nonempty buffer the mean output is the raw
arithmetic mean. -/
theorem peak_mean_correct :
    (∀ (c : ℕ) (n : ℕ), 0 < n →
      peak_mean (List.replicate n c) = ((c : ℚ), (c : ℚ), (c : ℚ))) ∧
    (∀ buffer : List ℕ, buffer ≠ [] →
      (peak_mean buffer).2.2 =
        (buffer.map (fun b : ℕ => (b : ℚ))).sum / (buffer.length : ℚ)) := by
  constructor
  · intro c n hn
    obtain ⟨m, rfl⟩ : ∃ m, n = m + 1 := ⟨n - 1, by omega⟩
    unfold peak_mean
    rw [List.replicate_succ]
    simp only [List.headD_cons, mean_filter_init]
    rw [← List.replicate_succ, peak_mean_go_const c (m + 1) 0]
    have hm : ((m : ℚ) + 1) ≠ 0 := by positivity
    refine Prod.ext rfl (Prod.ext rfl ?_)
    show (0 + ((m + 1 : ℕ) : ℚ) * (c : ℚ)) / ((List.replicate (m + 1) c).length : ℚ) = (c : ℚ)
    rw [zero_add, List.length_replicate]
    push_cast
    exact mul_div_cancel_left₀ _ hm
  · intro buffer hb
    simp only [peak_mean]
    rw [peak_mean_go_acc, zero_add]

/-- Witness for C6: a constant buffer of two samples `3` yields
`max = min = mean = 3`, and on `[1, 2]` the mean output is the raw mean. -/
theorem peak_mean_correct_witness :
    peak_mean (List.replicate 2 3) = (((3 : ℕ) : ℚ), ((3 : ℕ) : ℚ), ((3 : ℕ) : ℚ)) ∧
    (peak_mean [1, 2]).2.2 =
      (([1, 2] : List ℕ).map (fun b : ℕ => (b : ℚ))).sum /
        ((([1, 2] : List ℕ).length : ℕ) : ℚ) :=
  ⟨peak_mean_correct.1 3 2 (by norm_num),
    peak_mean_correct.2 [1, 2] (by simp)⟩

/-! ## Claim C9 — mean filter window semantics -/

/-- Running the filter from a well-formed state: output `i` is the mean of
the window of the last `K` inputs of pad-then-stream. The state invariant is
`lastN (K-1) (pad ++ consumed) ++ [scratch]`, where the scratch slot never
influences an output. -/
theorem mean_filter_run_go_spec (K : ℕ) (hK : 1 ≤ K) (c : ℚ) :
    ∀ (xs ys : List ℚ) (j : ℚ) (i : ℕ), i < xs.length →
      (mean_filter_run_go K
          (lastN (K - 1) (List.replicate (K - 1) c ++ ys) ++ [j]) xs).getD i 0
        = (lastN K (List.replicate (K - 1) c ++ ys ++ xs.take (i + 1))).sum /
            (K : ℚ)
  | [], ys, j, i, hi => by simp at hi
  | x :: xs', ys, j, i, hi => by
    have hLlen : K - 1 ≤ (List.replicate (K - 1) c ++ ys).length := by
      simp [List.length_append]
    have hw : (lastN (K - 1) (List.replicate (K - 1) c ++ ys)).length
        = K - 1 := by
      rw [lastN_length]
      simp [List.length_append]
    simp only [mean_filter_run_go]
    rw [mean_filter_filter_spec K _ j x hw]
    cases i with
    | zero =>
      simp only [List.getD_cons_zero]
      rw [show (x :: xs').take 1 = [x] from rfl]
      rw [lastN_concat K hK _ x, List.sum_append]
      simp
    | succ i' =>
      simp only [List.getD_cons_succ]
      rw [lastN_concat_drop (K - 1) (List.replicate (K - 1) c ++ ys) x hLlen]
      rw [show List.replicate (K - 1) c ++ ys ++ [x]
          = List.replicate (K - 1) c ++ (ys ++ [x]) from by
        rw [List.append_assoc]]
      rw [mean_filter_run_go_spec K hK c xs' (ys ++ [x]) x i'
        (by simpa using Nat.lt_of_succ_lt_succ hi)]
      congr 2
      simp [List.append_assoc]

/-- C9: for every window size `K ∈ [1, 100]`, a `mean_filter(K)` initialised
with `init(c)` returns, on the `i`-th `filter` call, the arithmetic mean of
the `K` most recent inputs including the new one, with inputs older than the
stream padded by `c` (the constant-stream case `x_i = c` returning `c` is the
instance `xs = replicate n c`). -/
theorem mean_filter_window_mean (K : ℕ) (c : ℚ) (xs : List ℚ) (i : ℕ)
    (hK1 : 1 ≤ K) (hK2 : K ≤ 100) (hi : i < xs.length) :
    (mean_filter_run K c xs).getD i 0 =
      (lastN K (List.replicate (K - 1) c ++ xs.take (i + 1))).sum / (K : ℚ) := by
  have hsize : mean_filter_size K = K := by
    unfold mean_filter_size
    rw [if_neg (by omega)]
  have hinit : mean_filter_init K c =
      lastN (K - 1) (List.replicate (K - 1) c ++ []) ++ [c] := by
    rw [List.append_nil, lastN_all (K - 1) _ (by simp)]
    unfold mean_filter_init
    conv_lhs => rw [show K = (K - 1) + 1 from by omega]
    rw [List.replicate_succ']
  simp only [mean_filter_run, hsize]
  rw [hinit, mean_filter_run_go_spec K hK1 c xs [] c i hi, List.append_nil]

/-- Witness for C9 at `K = 5`, `c = 2`, stream `[7, 7]`, call `i = 1`:
the output is `(2+2+2+7+7)/5 = 4`. -/
theorem mean_filter_window_mean_witness :
    (mean_filter_run 5 2 [7, 7]).getD 1 0 =
      (lastN 5 (List.replicate (5 - 1) 2 ++ ([7, 7] : List ℚ).take (1 + 1))).sum
        / ((5 : ℕ) : ℚ) :=
  mean_filter_window_mean 5 2 [7, 7] 1 (by norm_num) (by norm_num) (by norm_num)
